import Mathlib

/-!
Shallow embedding of the artifact classification, scan-strategy planning,
dependency-manifest synthesis, scan-executor cleanup, result-normalization
and report-aggregation logic of `clean_nexus_scanner.py`.

Python strings are modelled as `List Char` wherever the code performs
case conversion, suffix or substring tests (`.lower()`, `.endswith()`,
`in`), so that these operations become `List.map Char.toLower`,
`List.isSuffixOf` and `containsSub`.  Repository-format tags and
artifact-type tags are compared only for equality and stay `String`.
-/

namespace NexusScanner

/-- `asset_name.lower()` / `file_path.lower()` in the source. -/
def lowerName (name : List Char) : List Char := name.map Char.toLower

/-- Python's substring containment operator `sub in s`. -/
def containsSub (sub : List Char) : List Char → Bool
  | [] => sub.isEmpty
  | c :: rest => sub.isPrefixOf (c :: rest) || containsSub sub rest

theorem containsSub_iff {sub l : List Char} : containsSub sub l = true ↔ sub <:+: l := by
  induction l with
  | nil => simp [containsSub, List.infix_nil, List.isEmpty_iff]
  | cons c rest ih =>
    simp [containsSub, List.infix_cons_iff, ih]

/-- `detect_artifact_type(asset_name, repo_format)`
(clean_nexus_scanner.py, lines 1680-1762), transcribed branch by branch.
`name` is the asset name as a character list, `fmt` the repository
format tag. -/
def detect_artifact_type (name : List Char) (fmt : String) : String :=
  if fmt = "docker" then "container_image"
  else if fmt = "npm" then
    (if ".tgz".data.isSuffixOf (lowerName name) || containsSub "package".data (lowerName name)
     then "node_package" else "node_package")
  else if [".md5", ".sha1", ".sha256", ".sha512"].any
      (fun e => e.data.isSuffixOf (lowerName name)) then "script"
  else if [".jar", ".war", ".ear"].any
      (fun e => e.data.isSuffixOf (lowerName name)) then "java_jar"
  else if [".java", ".class"].any
      (fun e => e.data.isSuffixOf (lowerName name)) then "java_source"
  else if containsSub "pom.xml".data (lowerName name)
      || ".pom".data.isSuffixOf (lowerName name) then "maven_pom"
  else if ([".whl", ".egg"].any (fun e => e.data.isSuffixOf (lowerName name)))
      || (".tar.gz".data.isSuffixOf (lowerName name)
          && containsSub "python".data (lowerName name)) then "python_package"
  else if [".nupkg", ".nuspec"].any
      (fun e => e.data.isSuffixOf (lowerName name)) then "nuget_package"
  else if containsSub "package.json".data (lowerName name)
      || ".npm".data.isSuffixOf (lowerName name)
      || (".tgz".data.isSuffixOf (lowerName name)
          && (containsSub "node".data (lowerName name)
              || containsSub "client".data (lowerName name)
              || containsSub "npm".data (lowerName name)))
      || ".tar.gz".data.isSuffixOf (lowerName name) then "node_package"
  else if fmt ≠ "docker" && (["manifest.json", "config.json"].any
      (fun e => containsSub e.data (lowerName name))) then "docker_manifest"
  else if [".zip", ".7z", ".rar"].any
      (fun e => e.data.isSuffixOf (lowerName name)) then "archive"
  else if ([".tar", ".tar.gz", ".tgz"].any
      (fun e => e.data.isSuffixOf (lowerName name))) && fmt ≠ "docker" then "archive"
  else if [".exe", ".dll", ".so", ".dylib"].any
      (fun e => e.data.isSuffixOf (lowerName name)) then "binary_executable"
  else if [".sh", ".bat", ".ps1", ".py", ".js"].any
      (fun e => e.data.isSuffixOf (lowerName name)) then "script"
  else if [".xml", ".json", ".yaml", ".yml", ".properties", ".conf"].any
      (fun e => e.data.isSuffixOf (lowerName name)) then "configuration"
  else if ([".spdx"].any (fun e => containsSub e.data (lowerName name)))
      || (".json".data.isSuffixOf (lowerName name)
          && containsSub "sbom".data (lowerName name)) then "sbom"
  else if ["trivy-report", "scan-report", ".sarif"].any
      (fun e => containsSub e.data (lowerName name)) then "security_report"
  else if fmt = "maven2" then "maven_artifact"
  else if fmt = "nuget" then "nuget_package"
  else if fmt = "raw" then "raw_file"
  else "unknown"

/-- The strategy dict built by `determine_scan_strategy`
(clean_nexus_scanner.py, lines 1766-1772). -/
structure ScanStrategy where
  scan_type : String
  extract_before_scan : Bool
  scan_as_archive : Bool
  skip_scan : Bool
  reason : String
deriving DecidableEq, Repr

/-- `determine_scan_strategy(artifact_type, file_path, repo_format)`
(clean_nexus_scanner.py, lines 1764-1859).  Each branch fills in the
fields the Python `strategy.update(...)` call sets and keeps the base
values of lines 1766-1772 for the rest.  The `.tgz`/`.tar.gz` test of
line 1800 is on the raw `file_path` (case-sensitive), while the
checksum test of line 1838 is on `file_path.lower()` and uses substring
containment. -/
def determine_scan_strategy (artifact_type : String) (file_path : List Char)
    (repo_format : String) : ScanStrategy :=
  if artifact_type = "java_jar" ∨ artifact_type = "maven_artifact" then
    { scan_type := "fs", extract_before_scan := false, scan_as_archive := true,
      skip_scan := false,
      reason := "Java archive - scan for dependencies and vulnerabilities" }
  else if artifact_type = "container_image" ∨ repo_format = "docker" then
    { scan_type := "image", extract_before_scan := false, scan_as_archive := false,
      skip_scan := false,
      reason := "Container image - scan with Trivy image scanner" }
  else if artifact_type = "python_package" then
    { scan_type := "fs", extract_before_scan := false, scan_as_archive := true,
      skip_scan := false, reason := "Python package - scan for dependencies" }
  else if artifact_type = "node_package" then
    (if ".tgz".data.isSuffixOf file_path || ".tar.gz".data.isSuffixOf file_path then
      { scan_type := "fs", extract_before_scan := true, scan_as_archive := false,
        skip_scan := false,
        reason := "Node/npm package (.tgz) - extract and scan for dependencies" }
    else
      { scan_type := "fs", extract_before_scan := false, scan_as_archive := true,
        skip_scan := false, reason := "Node/npm package - scan for dependencies" })
  else if artifact_type = "nuget_package" then
    { scan_type := "fs", extract_before_scan := false, scan_as_archive := true,
      skip_scan := false, reason := "NuGet package - scan for dependencies" }
  else if artifact_type = "archive" ∨ artifact_type = "source_code" then
    { scan_type := "fs", extract_before_scan := true, scan_as_archive := false,
      skip_scan := false, reason := "Archive/source code - extract and scan contents" }
  else if artifact_type = "configuration" ∨ artifact_type = "sbom" then
    { scan_type := "config", extract_before_scan := false, scan_as_archive := false,
      skip_scan := false,
      reason := "Configuration/SBOM file - scan for misconfigurations" }
  else if [".md5", ".sha1", ".sha256", ".sha512"].any
      (fun e => containsSub e.data (lowerName file_path)) then
    { scan_type := "fs", extract_before_scan := false, scan_as_archive := false,
      skip_scan := true, reason := "Hash/checksum file - not scannable" }
  else if artifact_type = "security_report" then
    { scan_type := "fs", extract_before_scan := false, scan_as_archive := false,
      skip_scan := true,
      reason := "Existing security report - skip to avoid recursion" }
  else
    { scan_type := "fs", extract_before_scan := false, scan_as_archive := false,
      skip_scan := false,
      reason := "Unknown artifact type (" ++ artifact_type
        ++ ") - attempting filesystem scan" }

/-- The closed artifact-type enumeration of the specification's data model. -/
def artifactTypes : List String :=
  ["java_jar", "java_source", "maven_pom", "python_package", "node_package",
   "nuget_package", "container_image", "docker_manifest", "archive",
   "source_code", "binary_executable", "script", "configuration", "sbom",
   "security_report", "maven_artifact", "raw_file", "unknown"]

theorem lower_isSuffixOf {a l : List Char} (h : a.isSuffixOf l = true) :
    (a.map Char.toLower).isSuffixOf (l.map Char.toLower) = true := by
  rw [List.isSuffixOf_iff_suffix] at h ⊢
  obtain ⟨t, rfl⟩ := h
  exact ⟨t.map Char.toLower, by rw [List.map_append]⟩

theorem getLast?_of_isSuffixOf {a l : List Char} (h : a.isSuffixOf l = true)
    (ha : a ≠ []) : l.getLast? = a.getLast? := by
  rw [List.isSuffixOf_iff_suffix] at h
  obtain ⟨t, rfl⟩ := h
  rw [List.getLast?_append]
  obtain ⟨x, hx⟩ : ∃ x, a.getLast? = some x := by
    cases a with
    | nil => exact absurd rfl ha
    | cons y ys => exact ⟨_, List.getLast?_cons⟩
  rw [hx]
  rfl

theorem isSuffixOf_eq_false_of_getLast?_ne {a l : List Char}
    (ha : a ≠ []) (h : l.getLast? ≠ a.getLast?) : a.isSuffixOf l = false := by
  cases hs : a.isSuffixOf l with
  | false => rfl
  | true => exact absurd (getLast?_of_isSuffixOf hs ha) h

theorem any_isSuffixOf_eq_false {l : List Char} {c : Char}
    (hl : l.getLast? = some c) (exts : List String)
    (hex : ∀ e ∈ exts, e.data ≠ [] ∧ e.data.getLast? ≠ some c) :
    (exts.any (fun e => e.data.isSuffixOf l)) = false := by
  rw [List.any_eq_false]
  intro e he
  simp only [Bool.not_eq_true]
  refine isSuffixOf_eq_false_of_getLast?_ne (hex e he).1 ?_
  rw [hl]
  exact fun heq => (hex e he).2 heq.symm

theorem containsSub_of_isSuffixOf {a l : List Char} (h : a.isSuffixOf l = true) :
    containsSub a l = true := by
  rw [List.isSuffixOf_iff_suffix] at h
  exact containsSub_iff.mpr h.isInfix

theorem ne_true_of_eq_false {b : Bool} (h : b = false) : ¬(b = true) := by simp [h]

theorem mem_ite_of_mem {α} {c : Prop} [Decidable c] {a b : α} {l : List α}
    (ha : a ∈ l) (hb : b ∈ l) : (if c then a else b) ∈ l := by
  split <;> assumption

/-- C1 (counterexample): the claim fails for the npm and docker repository
formats.  For `app.jar.md5` in an npm repository and `layer.sha256` in a
docker repository — names ending in checksum extensions — classifying and
then planning yields a strategy with `skip_scan = false`, because the
format shortcuts classify them as `node_package` / `container_image` and
those planner branches precede the checksum-skip branch. -/
theorem C1_checksum_counterexample :
    (".md5".data.isSuffixOf "app.jar.md5".data = true
      ∧ (determine_scan_strategy (detect_artifact_type "app.jar.md5".data "npm")
          "app.jar.md5".data "npm").skip_scan = false)
    ∧ (".sha256".data.isSuffixOf "layer.sha256".data = true
      ∧ (determine_scan_strategy (detect_artifact_type "layer.sha256".data "docker")
          "layer.sha256".data "docker").skip_scan = false) := by decide

/-- C1 (amended): for every asset name ending in `.md5`, `.sha1`, `.sha256`
or `.sha512`, in a repository whose format is neither `docker` nor `npm`,
the strategy returned by classifying the asset and then planning has
`skip_scan = true`. -/
theorem C1_checksum_amended (name : List Char) (fmt : String)
    (hdocker : fmt ≠ "docker") (hnpm : fmt ≠ "npm")
    (hsum : ([".md5", ".sha1", ".sha256", ".sha512"].any
      (fun e => e.data.isSuffixOf name)) = true) :
    (determine_scan_strategy (detect_artifact_type name fmt) name fmt).skip_scan
      = true := by
  rw [List.any_eq_true] at hsum
  obtain ⟨e, he, hsuf⟩ := hsum
  have hlowe : (e.data.map Char.toLower) = e.data := by
    fin_cases he <;> decide
  have hsuf' : e.data.isSuffixOf (lowerName name) = true := by
    have h := lower_isSuffixOf hsuf
    rwa [hlowe] at h
  have hlowsum : ([".md5", ".sha1", ".sha256", ".sha512"].any
      (fun e => e.data.isSuffixOf (lowerName name))) = true :=
    List.any_eq_true.mpr ⟨e, he, hsuf'⟩
  have hdet : detect_artifact_type name fmt = "script" := by
    unfold detect_artifact_type
    rw [if_neg hdocker, if_neg hnpm, if_pos hlowsum]
  rw [hdet]
  have hcs : containsSub e.data (lowerName name) = true := containsSub_of_isSuffixOf hsuf'
  have hcssum : ([".md5", ".sha1", ".sha256", ".sha512"].any
      (fun e => containsSub e.data (lowerName name))) = true :=
    List.any_eq_true.mpr ⟨e, he, hcs⟩
  unfold determine_scan_strategy
  rw [if_neg (by decide : ¬("script" = "java_jar" ∨ "script" = "maven_artifact")),
      if_neg (fun h => h.elim (by decide) hdocker),
      if_neg (by decide : ¬("script" = "python_package")),
      if_neg (by decide : ¬("script" = "node_package")),
      if_neg (by decide : ¬("script" = "nuget_package")),
      if_neg (by decide : ¬("script" = "archive" ∨ "script" = "source_code")),
      if_neg (by decide : ¬("script" = "configuration" ∨ "script" = "sbom")),
      if_pos hcssum]

/-- C1 (witness): concrete instance of the amended claim at
`checksums/app.sha256` in a `raw`-format repository. -/
theorem C1_checksum_witness :
    (("raw" : String) ≠ "docker" ∧ ("raw" : String) ≠ "npm"
      ∧ ([".md5", ".sha1", ".sha256", ".sha512"].any
          (fun e => e.data.isSuffixOf "checksums/app.sha256".data)) = true)
    ∧ (determine_scan_strategy (detect_artifact_type "checksums/app.sha256".data "raw")
        "checksums/app.sha256".data "raw").skip_scan = true :=
  ⟨⟨by decide, by decide, by decide⟩,
   C1_checksum_amended "checksums/app.sha256".data "raw" (by decide) (by decide) (by decide)⟩

/-- C4 (counterexample): `data.tar.gz` in a `maven2` repository ends in
`.tar.gz`, matches none of the earlier classification rules, yet
classification returns `node_package`, not `archive`: the node-package
rule's unconditional `.tar.gz` disjunct fires before the generic-archive
rule. -/
theorem C4_targz_counterexample :
    ".tar.gz".data.isSuffixOf "data.tar.gz".data = true
    ∧ detect_artifact_type "data.tar.gz".data "maven2" = "node_package"
    ∧ ¬ detect_artifact_type "data.tar.gz".data "maven2" = "archive" := by decide

/-- C4 (amended): for every asset name ending in `.tar.gz` in a repository
whose format is not `docker`, where the name matches none of the earlier
classification rules (no `python` hint, no `pom.xml`, no `package.json`),
classification returns the artifact type `node_package` — the generic
`archive` rule is unreachable for `.tar.gz` names. -/
theorem C4_targz_amended (name : List Char) (fmt : String)
    (hdocker : fmt ≠ "docker")
    (htar : ".tar.gz".data.isSuffixOf (lowerName name) = true)
    (hpy : containsSub "python".data (lowerName name) = false)
    (hpom : containsSub "pom.xml".data (lowerName name) = false)
    (_hpkg : containsSub "package.json".data (lowerName name) = false) :
    detect_artifact_type name fmt = "node_package" := by
  have hz : (lowerName name).getLast? = some 'z' := by
    rw [getLast?_of_isSuffixOf htar (by decide)]
    decide
  by_cases hnpm : fmt = "npm"
  · unfold detect_artifact_type
    rw [if_neg hdocker, if_pos hnpm]
    exact ite_self _
  · unfold detect_artifact_type
    rw [if_neg hdocker, if_neg hnpm,
        if_neg (ne_true_of_eq_false (any_isSuffixOf_eq_false hz _ (by decide))),
        if_neg (ne_true_of_eq_false (any_isSuffixOf_eq_false hz _ (by decide))),
        if_neg (ne_true_of_eq_false (any_isSuffixOf_eq_false hz _ (by decide))),
        if_neg (ne_true_of_eq_false (by
          rw [hpom, isSuffixOf_eq_false_of_getLast?_ne (by decide) (by rw [hz]; decide)]
          decide)),
        if_neg (ne_true_of_eq_false (by
          rw [any_isSuffixOf_eq_false hz _ (by decide), hpy, Bool.and_false]; decide)),
        if_neg (ne_true_of_eq_false (any_isSuffixOf_eq_false hz _ (by decide))),
        if_pos (by simp [htar])]

/-- C4 (witness): concrete instance of the amended claim at
`archive-2.0.tar.gz` in a `generic`-format repository. -/
theorem C4_targz_witness :
    (("generic" : String) ≠ "docker"
      ∧ ".tar.gz".data.isSuffixOf (lowerName "archive-2.0.tar.gz".data) = true
      ∧ containsSub "python".data (lowerName "archive-2.0.tar.gz".data) = false
      ∧ containsSub "pom.xml".data (lowerName "archive-2.0.tar.gz".data) = false
      ∧ containsSub "package.json".data (lowerName "archive-2.0.tar.gz".data) = false)
    ∧ detect_artifact_type "archive-2.0.tar.gz".data "generic" = "node_package" :=
  ⟨⟨by decide, by decide, by decide, by decide, by decide⟩,
   C4_targz_amended "archive-2.0.tar.gz".data "generic"
     (by decide) (by decide) (by decide) (by decide) (by decide)⟩

/-- C9: classification is deterministic and total — `detect_artifact_type`
is a pure function (two calls with identical inputs return the identical
value), and for every (asset name, repository format) pair its result
belongs to the closed artifact-type enumeration. -/
theorem C9_classification_total (name : List Char) (fmt : String) :
    detect_artifact_type name fmt = detect_artifact_type name fmt
    ∧ detect_artifact_type name fmt ∈ artifactTypes := by
  refine ⟨rfl, ?_⟩
  unfold detect_artifact_type
  repeat' refine mem_ite_of_mem ?_ ?_
  all_goals decide

/-- C9 (witness): the totality theorem instantiated at a concrete input. -/
theorem C9_classification_total_witness :
    detect_artifact_type "libfoo-1.2.3.jar".data "maven2"
      ∈ artifactTypes :=
  (C9_classification_total "libfoo-1.2.3.jar".data "maven2").2

/-- C10: the planner's node-package tarball check is case-sensitive while
classification is case-insensitive.  For a name ending in upper-case
`.TGZ` or `.TAR.GZ` in an npm repository, classification gives
`node_package` but the planner takes the non-tarball branch
(`extract_before_scan = false`, `scan_as_archive = true`); the same name
in lower case gets the extract-first strategy. -/
theorem C10_case_sensitivity (name : List Char) :
    ((".TGZ".data.isSuffixOf name = true ∨ ".TAR.GZ".data.isSuffixOf name = true) →
      detect_artifact_type name "npm" = "node_package"
      ∧ ((determine_scan_strategy (detect_artifact_type name "npm") name "npm").extract_before_scan = false
        ∧ (determine_scan_strategy (detect_artifact_type name "npm") name "npm").scan_as_archive = true))
    ∧ ((".tgz".data.isSuffixOf name = true ∨ ".tar.gz".data.isSuffixOf name = true) →
      detect_artifact_type name "npm" = "node_package"
      ∧ ((determine_scan_strategy (detect_artifact_type name "npm") name "npm").extract_before_scan = true
        ∧ (determine_scan_strategy (detect_artifact_type name "npm") name "npm").scan_as_archive = false)) := by
  have hdet : detect_artifact_type name "npm" = "node_package" := by
    unfold detect_artifact_type
    rw [if_neg (by decide : ¬(("npm" : String) = "docker")), if_pos rfl]
    exact ite_self _
  rw [hdet]
  constructor
  · intro hU
    have hZ : name.getLast? = some 'Z' := by
      rcases hU with h | h
      · rw [getLast?_of_isSuffixOf h (by decide)]; decide
      · rw [getLast?_of_isSuffixOf h (by decide)]; decide
    have h1 : ".tgz".data.isSuffixOf name = false :=
      isSuffixOf_eq_false_of_getLast?_ne (by decide) (by rw [hZ]; decide)
    have h2 : ".tar.gz".data.isSuffixOf name = false :=
      isSuffixOf_eq_false_of_getLast?_ne (by decide) (by rw [hZ]; decide)
    refine ⟨rfl, ?_, ?_⟩ <;>
    · unfold determine_scan_strategy
      rw [if_neg (by decide), if_neg (by decide), if_neg (by decide), if_pos rfl,
          if_neg (ne_true_of_eq_false (by rw [h1, h2, Bool.or_false]))]
  · intro hL
    have hcond : (".tgz".data.isSuffixOf name || ".tar.gz".data.isSuffixOf name) = true := by
      rcases hL with h | h
      · rw [h]; simp
      · rw [h]; simp
    refine ⟨rfl, ?_, ?_⟩ <;>
    · unfold determine_scan_strategy
      rw [if_neg (by decide), if_neg (by decide), if_neg (by decide), if_pos rfl,
          if_pos hcond]

/-- C10 (witness): concrete instances at `pkg.TGZ` and `pkg.tgz` in an npm
repository. -/
theorem C10_case_sensitivity_witness :
    (".TGZ".data.isSuffixOf "pkg.TGZ".data = true
      ∧ ((determine_scan_strategy (detect_artifact_type "pkg.TGZ".data "npm")
            "pkg.TGZ".data "npm").extract_before_scan = false
        ∧ (determine_scan_strategy (detect_artifact_type "pkg.TGZ".data "npm")
            "pkg.TGZ".data "npm").scan_as_archive = true))
    ∧ (".tgz".data.isSuffixOf "pkg.tgz".data = true
      ∧ ((determine_scan_strategy (detect_artifact_type "pkg.tgz".data "npm")
            "pkg.tgz".data "npm").extract_before_scan = true
        ∧ (determine_scan_strategy (detect_artifact_type "pkg.tgz".data "npm")
            "pkg.tgz".data "npm").scan_as_archive = false)) :=
  ⟨⟨by decide, ((C10_case_sensitivity "pkg.TGZ".data).1 (Or.inl (by decide))).2⟩,
   ⟨by decide, ((C10_case_sensitivity "pkg.tgz".data).2 (Or.inl (by decide))).2⟩⟩

/-! ### Result normalizer (`extract_vulnerabilities`, lines 1031-1071) -/

/-- One finding inside a result section of the raw Trivy JSON output.
`none` models an absent (or JSON-null) key, matching `vuln.get(...)`. -/
structure TrivyVuln where
  vulnerabilityID : Option String
  pkgName : Option String
  installedVersion : Option String
  severity : Option String
  title : Option String
  description : Option String
  fixedVersion : Option String
  references : Option (List String)
deriving DecidableEq, Repr

/-- One result section of the raw Trivy JSON output.  `vulnerabilities =
none` models an absent or null `Vulnerabilities` key (both falsy in
`if not vulns`). -/
structure TrivyResult where
  target : Option String
  vulnerabilities : Option (List TrivyVuln)
deriving DecidableEq, Repr

/-- The raw Trivy JSON output; `results = none` models an absent
`Results` key (`trivy_results.get('Results', [])`). -/
structure TrivyResults where
  results : Option (List TrivyResult)
deriving DecidableEq, Repr

/-- The vulnerability record built at lines 1057-1067. -/
structure Vulnerability where
  target : String
  vulnerability_id : String
  pkg_name : String
  pkg_version : String
  severity : String
  title : String
  description : String
  fixed_version : String
  references : List String
deriving DecidableEq, Repr

/-- The per-finding record construction of lines 1057-1067, with the
source's defaults for absent keys. -/
def mkRecord (target : String) (v : TrivyVuln) : Vulnerability :=
  { target := target
    vulnerability_id := v.vulnerabilityID.getD ""
    pkg_name := v.pkgName.getD ""
    pkg_version := v.installedVersion.getD ""
    severity := v.severity.getD "UNKNOWN"
    title := v.title.getD ""
    description := v.description.getD ""
    fixed_version := v.fixedVersion.getD ""
    references := v.references.getD [] }

/-- `extract_vulnerabilities(trivy_results)` (lines 1031-1071).  The
argument `none` models a falsy `trivy_results` (line 1035); each result
section contributes one record per finding, with `Target` defaulting to
`"Unknown"` and sections without findings skipped (`continue`). -/
def extract_vulnerabilities (tr : Option TrivyResults) : List Vulnerability :=
  match tr with
  | none => []
  | some t =>
    (t.results.getD []).foldl
      (fun acc result =>
        let vulns := result.vulnerabilities.getD []
        if vulns.isEmpty then acc
        else acc ++ vulns.map (mkRecord (result.target.getD "Unknown")))
      []

/-- C5 (counterexample): a raw result with one section whose `Target` is
the empty string and which holds one finding yields one record whose
`target` is empty — refuting "each with a non-empty target". -/
theorem C5_normalizer_counterexample :
    (extract_vulnerabilities (some ⟨some [⟨some "",
        some [⟨none, none, none, none, none, none, none, none⟩]⟩]⟩)).length = 1
    ∧ ¬ (∀ r ∈ extract_vulnerabilities (some ⟨some [⟨some "",
        some [⟨none, none, none, none, none, none, none, none⟩]⟩]⟩), r.target ≠ "") := by
  decide

/-- C5 (amended): for a raw engine result with one result section holding
N findings, the normalizer returns exactly N records; each record's
target is the section's `Target` (defaulting to `"Unknown"` when absent)
and is non-empty whenever that `Target` is not the empty string; absent
text fields default to the empty string, severity to `UNKNOWN`,
references to the empty list; an absent raw result or one without result
sections yields the empty list. -/
theorem C5_normalizer_amended (tgt : Option String) (vs : List TrivyVuln)
    (hne : tgt ≠ some "") :
    (extract_vulnerabilities (some ⟨some [⟨tgt, some vs⟩]⟩)).length = vs.length
    ∧ extract_vulnerabilities (some ⟨some [⟨tgt, some vs⟩]⟩)
        = vs.map (fun v =>
            { target := tgt.getD "Unknown"
              vulnerability_id := v.vulnerabilityID.getD ""
              pkg_name := v.pkgName.getD ""
              pkg_version := v.installedVersion.getD ""
              severity := v.severity.getD "UNKNOWN"
              title := v.title.getD ""
              description := v.description.getD ""
              fixed_version := v.fixedVersion.getD ""
              references := v.references.getD [] })
    ∧ (∀ r ∈ extract_vulnerabilities (some ⟨some [⟨tgt, some vs⟩]⟩), r.target ≠ "")
    ∧ extract_vulnerabilities none = []
    ∧ extract_vulnerabilities (some ⟨none⟩) = []
    ∧ extract_vulnerabilities (some ⟨some []⟩) = [] := by
  have hmain : extract_vulnerabilities (some ⟨some [⟨tgt, some vs⟩]⟩)
      = vs.map (mkRecord (tgt.getD "Unknown")) := by
    cases vs with
    | nil => simp [extract_vulnerabilities]
    | cons v rest => simp [extract_vulnerabilities]
  have htgt : tgt.getD "Unknown" ≠ "" := by
    cases tgt with
    | none => decide
    | some s => exact fun h => hne (by rw [show ((some s : Option String).getD "Unknown") = s from rfl] at h; rw [h])
  refine ⟨by rw [hmain, List.length_map], by rw [hmain]; rfl, ?_, rfl, rfl, rfl⟩
  intro r hr
  rw [hmain] at hr
  obtain ⟨v, hv, rfl⟩ := List.mem_map.mp hr
  exact htgt

/-- C5 (witness): concrete instance at a section with target
`lib/openssl` and one finding with every key absent. -/
theorem C5_normalizer_witness :
    (some "lib/openssl" : Option String) ≠ some ""
    ∧ (∀ r ∈ extract_vulnerabilities (some ⟨some [⟨some "lib/openssl",
        some [⟨none, none, none, none, none, none, none, none⟩]⟩]⟩), r.target ≠ "") :=
  ⟨by decide,
   (C5_normalizer_amended (some "lib/openssl")
     [⟨none, none, none, none, none, none, none, none⟩] (by decide)).2.2.1⟩

/-! ### Per-asset pipeline skip behaviour (`scan_content_repositories`,
lines 1488-1601) -/

/-- Observable steps of the per-asset segment of the scan loop. -/
inductive PipelineAction where
  | logSkip
  | download
  | invokeScan
deriving DecidableEq, Repr

/-- The per-asset segment of `scan_content_repositories` (lines
1488-1601): classify, plan, and either log the skip and `continue` (line
1497-1507), or attempt the download (line 1522) and — only when it
succeeds — invoke `scan_with_strategy` (line 1529).  `downloadOk`
abstracts the excluded download mechanism. -/
def process_asset (downloadOk : Bool) (name : List Char) (fmt : String) :
    List PipelineAction :=
  if (determine_scan_strategy (detect_artifact_type name fmt) name fmt).skip_scan then
    [.logSkip]
  else if downloadOk then [.download, .invokeScan]
  else [.download]

/-- C3: if the planned strategy says skip, the executor is never invoked
for that asset: the pipeline logs the skip and neither downloads nor
scans. -/
theorem C3_skip_never_scans (downloadOk : Bool) (name : List Char) (fmt : String)
    (h : (determine_scan_strategy (detect_artifact_type name fmt) name fmt).skip_scan
      = true) :
    process_asset downloadOk name fmt = [PipelineAction.logSkip]
    ∧ PipelineAction.invokeScan ∉ process_asset downloadOk name fmt
    ∧ PipelineAction.download ∉ process_asset downloadOk name fmt := by
  unfold process_asset
  rw [if_pos h]
  exact ⟨rfl, by decide, by decide⟩

/-- C3 (witness): concrete instance at `checksums/app.sha256` in a
`raw`-format repository, whose planned strategy is a skip. -/
theorem C3_skip_never_scans_witness :
    (determine_scan_strategy (detect_artifact_type "checksums/app.sha256".data "raw")
      "checksums/app.sha256".data "raw").skip_scan = true
    ∧ PipelineAction.invokeScan ∉ process_asset true "checksums/app.sha256".data "raw" :=
  ⟨by decide,
   (C3_skip_never_scans true "checksums/app.sha256".data "raw" (by decide)).2.1⟩

/-! ### Scan executor cleanup (`scan_with_trivy`, lines 861-1029, and
`scan_with_strategy`, lines 1073-1104)

The executor's effect on disk is modelled on the set of existing paths
(a `List String`).  A `TrivyRun` records the observable outcome of one
engine subprocess invocation: whether it timed out, its exit code, and
whether it wrote its `--output` file before returning. -/

structure TrivyRun where
  timeout : Bool
  returncode : Int
  createsOutput : Bool
deriving DecidableEq, Repr

/-- Environment of one executor call: the outcomes of the JSON and HTML
engine runs, whether the read-parse-save block of each output succeeds
(lines 967-989 / 997-1014 — an exception there is caught and skips the
`os.remove`), whether `extract_archive` succeeds, and whether
`shutil.rmtree` succeeds. -/
structure ScanEnv where
  jsonRun : TrivyRun
  htmlRun : TrivyRun
  jsonHandleOk : Bool
  htmlHandleOk : Bool
  extractOk : Bool
  rmtreeOk : Bool
deriving DecidableEq, Repr

/-- `os.path.exists` on the modelled path set. -/
def fsHas : List String → String → Bool
  | [], _ => false
  | q :: rest, p => q == p || fsHas rest p

/-- A path coming into existence (file or directory creation). -/
def fsAdd (s : List String) (p : String) : List String := p :: s

/-- `os.remove` / `shutil.rmtree` of a path. -/
def fsRemove (s : List String) (p : String) : List String :=
  s.filter (fun q => q != p)

/-- Lines 966-993 (JSON) and 996-1018 (HTML): if the output file exists,
read it, parse/save it, and delete it (`os.remove`); an exception in the
read-parse-save block is caught and the delete is skipped; a missing
file only logs a warning. -/
def handleOutput (ok : Bool) (fs : List String) (p : String) : Bool × List String :=
  if fsHas fs p then (if ok then (true, fsRemove fs p) else (false, fs))
  else (false, fs)

/-- `scan_with_trivy(file_path, scan_type)` (lines 861-1029) as a state
transformer on the path set: the engine may create
`<file_path>.trivy.json`; on timeout (line 1023) or non-zero exit (line
944) the function returns `None` with no cleanup; otherwise the HTML run
happens (its exit code is not checked) and the two outputs are read back
and removed. -/
def scan_with_trivy (env : ScanEnv) (filePath : String) (fs : List String) :
    Option (Bool × Bool) × List String :=
  let jsonFile := filePath ++ ".trivy.json"
  let htmlFile := filePath ++ ".trivy.html"
  let fs1 := if env.jsonRun.createsOutput then fsAdd fs jsonFile else fs
  if env.jsonRun.timeout then (none, fs1)
  else if env.jsonRun.returncode ≠ 0 then (none, fs1)
  else
    let fs2 := if env.htmlRun.createsOutput then fsAdd fs1 htmlFile else fs1
    if env.htmlRun.timeout then (none, fs2)
    else
      let j := handleOutput env.jsonHandleOk fs2 jsonFile
      let h := handleOutput env.htmlHandleOk j.2 htmlFile
      (some (j.1, h.1), h.2)

/-- `scan_with_strategy(file_path, strategy, artifact_type)` (lines
1073-1104): when the strategy asks for extraction, `extract_archive`
creates `<file_path>_extracted` (its `os.makedirs` runs before any
failure), the scan runs on the extracted directory (or on the original
file when extraction fails), and lines 1093-1098 remove the extraction
directory if it exists, tolerating `rmtree` failure. -/
def scan_with_strategy (env : ScanEnv) (filePath : String) (strategy : ScanStrategy)
    (fs : List String) : Option (Bool × Bool) × List String :=
  if strategy.extract_before_scan then
    let extractDir := filePath ++ "_extracted"
    let fs1 := fsAdd fs extractDir
    let actualPath := if env.extractOk then extractDir else filePath
    let r := scan_with_trivy env actualPath fs1
    let fs3 := if fsHas r.2 extractDir then
        (if env.rmtreeOk then fsRemove r.2 extractDir else r.2)
      else r.2
    (r.1, fs3)
  else
    scan_with_trivy env filePath fs

theorem fsHas_fsRemove_self (s : List String) (p : String) :
    fsHas (fsRemove s p) p = false := by
  induction s with
  | nil => rfl
  | cons q rest ih =>
    simp only [fsRemove, List.filter_cons] at *
    by_cases h : q = p
    · simp [h, ih]
    · simp only [bne_iff_ne, ne_eq, h, not_false_eq_true, if_true, fsHas, ih]
      simp [h]

theorem fsHas_fsRemove_ne (s : List String) {p q : String} (h : q ≠ p) :
    fsHas (fsRemove s p) q = fsHas s q := by
  induction s with
  | nil => rfl
  | cons x rest ih =>
    simp only [fsRemove] at ih ⊢
    by_cases hx : x = p
    · have hpq : (x == q) = false := by
        rw [hx]
        exact beq_eq_false_iff_ne.mpr (fun he => h he.symm)
      have hbn : (x != p) = false := by rw [hx]; simp
      simp [List.filter_cons, hbn, fsHas, hpq, ih]
    · have hbn : (x != p) = true := bne_iff_ne.mpr hx
      simp [List.filter_cons, hbn, fsHas, ih]

theorem fsHas_cleanup (s : List String) (p : String) :
    fsHas (if fsHas s p then fsRemove s p else s) p = false := by
  split
  · exact fsHas_fsRemove_self s p
  · next h => simpa using h

theorem handleOutput_true_not_has (fs : List String) (p : String) :
    fsHas (handleOutput true fs p).2 p = false := by
  unfold handleOutput
  split
  · simp [fsHas_fsRemove_self]
  · next h => simpa using h

theorem handleOutput_preserves_ne (ok : Bool) (fs : List String) {p q : String}
    (h : q ≠ p) : fsHas (handleOutput ok fs p).2 q = fsHas fs q := by
  unfold handleOutput
  split
  · cases ok <;> simp [fsHas_fsRemove_ne fs h]
  · rfl

theorem string_append_right_ne (s : String) {a b : String} (h : a ≠ b) :
    s ++ a ≠ s ++ b := by
  intro he
  apply h
  have hd : s.data ++ a.data = s.data ++ b.data := congrArg String.data he
  have h2 := List.append_cancel_left hd
  cases a
  cases b
  exact congrArg String.mk h2

/-- C2 (counterexample): with a Java-archive strategy, an engine JSON run
that exits with code 1 after writing its output file leaves
`pkg.jar.trivy.json` on disk when `scan_with_strategy` returns `None` —
cleanup does not happen on the non-zero-exit path (line 948 returns
before any delete). -/
theorem C2_cleanup_counterexample :
    (scan_with_strategy ⟨⟨false, 1, true⟩, ⟨false, 0, true⟩, true, true, true, true⟩
        "pkg.jar" (determine_scan_strategy "java_jar" "pkg.jar".data "maven2") []).1 = none
    ∧ fsHas (scan_with_strategy ⟨⟨false, 1, true⟩, ⟨false, 0, true⟩, true, true, true, true⟩
        "pkg.jar" (determine_scan_strategy "java_jar" "pkg.jar".data "maven2") []).2
        ("pkg.jar" ++ ".trivy.json") = true := by decide

theorem handleOutput_false_snd (fs : List String) (p : String) :
    (handleOutput false fs p).2 = fs := by
  unfold handleOutput
  split <;> rfl

/-- C2 (amended): the temporary output files are deleted only on the
success path: when neither engine run times out, the JSON run exits zero,
and the read-parse-save block of each output succeeds, the call returns a
result and both temporary output files are absent afterwards.  The
extraction working directory is removed on every scan outcome whenever
`rmtree` succeeds (lines 1093-1098 run unconditionally, since
`scan_with_trivy` catches all its own exceptions).  On timeout or on a
read/parse exception — just as on non-zero exit (see the counterexample)
— an engine-written output file is left behind. -/
theorem C2_cleanup_amended (env : ScanEnv) (filePath : String) (fs : List String) :
    (env.jsonRun.timeout = false → env.jsonRun.returncode = 0 →
      env.htmlRun.timeout = false → env.jsonHandleOk = true → env.htmlHandleOk = true →
      (scan_with_trivy env filePath fs).1.isSome = true
      ∧ fsHas (scan_with_trivy env filePath fs).2 (filePath ++ ".trivy.json") = false
      ∧ fsHas (scan_with_trivy env filePath fs).2 (filePath ++ ".trivy.html") = false)
    ∧ (∀ strategy : ScanStrategy, strategy.extract_before_scan = true →
        env.rmtreeOk = true →
        fsHas (scan_with_strategy env filePath strategy fs).2
          (filePath ++ "_extracted") = false)
    ∧ (env.jsonRun.timeout = true → env.jsonRun.createsOutput = true →
        (scan_with_trivy env filePath fs).1 = none
        ∧ fsHas (scan_with_trivy env filePath fs).2 (filePath ++ ".trivy.json") = true)
    ∧ (env.jsonRun.timeout = false → env.jsonRun.returncode = 0 →
        env.htmlRun.timeout = false → env.jsonHandleOk = false →
        env.jsonRun.createsOutput = true →
        fsHas (scan_with_trivy env filePath fs).2 (filePath ++ ".trivy.json") = true) := by
  have hne : filePath ++ ".trivy.json" ≠ filePath ++ ".trivy.html" :=
    string_append_right_ne filePath (by decide)
  refine ⟨?_, ?_, ?_, ?_⟩
  · intro hjt hjr hht hjo hho
    simp only [scan_with_trivy, hjt, hjr, hht, hjo, hho, Bool.false_eq_true, if_false,
      ne_eq, not_true_eq_false, not_false_eq_true, if_true]
    refine ⟨by simp, ?_, ?_⟩
    · rw [handleOutput_preserves_ne _ _ hne, handleOutput_true_not_has]
    · rw [handleOutput_true_not_has]
  · intro strategy hext hrm
    simp only [scan_with_strategy, hext, hrm, if_true]
    exact fsHas_cleanup _ _
  · intro hjt hjc
    simp only [scan_with_trivy, hjt, hjc, if_true]
    constructor
    · simp
    · simp [fsAdd, fsHas]
  · intro hjt hjr hht hjo hjc
    simp only [scan_with_trivy, hjt, hjr, hht, hjo, hjc, Bool.false_eq_true, if_false,
      ne_eq, not_true_eq_false, not_false_eq_true, if_true]
    rw [handleOutput_preserves_ne _ _ hne, handleOutput_false_snd]
    split <;> simp [fsAdd, fsHas]

/-- C2 (witness): concrete instances at `lib.whl` — the success path
deletes the JSON output; the extraction directory is removed even when
the scan times out; a timeout or a read/parse failure leaves the written
JSON output behind. -/
theorem C2_cleanup_witness :
    (fsHas (scan_with_trivy ⟨⟨false, 0, true⟩, ⟨false, 0, true⟩, true, true, true, true⟩
        "lib.whl" []).2 ("lib.whl" ++ ".trivy.json") = false)
    ∧ (fsHas (scan_with_strategy ⟨⟨true, 0, true⟩, ⟨false, 0, true⟩, true, true, true, true⟩
        "lib.whl" (determine_scan_strategy "archive" "lib.whl".data "raw") []).2
        ("lib.whl" ++ "_extracted") = false)
    ∧ (fsHas (scan_with_trivy ⟨⟨true, 0, true⟩, ⟨false, 0, true⟩, true, true, true, true⟩
        "lib.whl" []).2 ("lib.whl" ++ ".trivy.json") = true)
    ∧ (fsHas (scan_with_trivy ⟨⟨false, 0, true⟩, ⟨false, 0, true⟩, false, true, true, true⟩
        "lib.whl" []).2 ("lib.whl" ++ ".trivy.json") = true) :=
  ⟨((C2_cleanup_amended ⟨⟨false, 0, true⟩, ⟨false, 0, true⟩, true, true, true, true⟩
      "lib.whl" []).1 rfl rfl rfl rfl rfl).2.1,
   (C2_cleanup_amended ⟨⟨true, 0, true⟩, ⟨false, 0, true⟩, true, true, true, true⟩
      "lib.whl" []).2.1
     (determine_scan_strategy "archive" "lib.whl".data "raw") (by decide) rfl,
   ((C2_cleanup_amended ⟨⟨true, 0, true⟩, ⟨false, 0, true⟩, true, true, true, true⟩
      "lib.whl" []).2.2.1 rfl rfl).2,
   (C2_cleanup_amended ⟨⟨false, 0, true⟩, ⟨false, 0, true⟩, false, true, true, true⟩
      "lib.whl" []).2.2.2 rfl rfl rfl rfl rfl⟩

/-! ### Dependency-manifest synthesizer
(`enhance_nodejs_package_for_scanning`, lines 1146-1256)

The extracted tree is modelled as a flat map from paths (component
lists) to typed file contents.  A `FileContent.manifest` is a file that
parses as a package manifest; any other content at a `package.json` path
models an unparseable manifest, whose synthesis the source skips via the
inner `except` (lines 1248-1250). -/

/-- A parsed `package.json`: `name`, `version` and the flat dependency
map, in insertion order (`pkg_data.get(...)`, lines 1172-1174). -/
structure PkgManifest where
  name : Option String
  version : Option String
  dependencies : List (String × String)
deriving DecidableEq, Repr

/-- One entry of the synthetic lock's `packages` dict (lines 1184-1209):
the root entry carries name/license/declared dependencies, the
`node_modules/<dep>` entries carry version/resolved/integrity. -/
structure PkgEntry where
  name : Option String
  version : String
  license : Option String
  resolved : Option String
  integrity : Option String
  dependencies : Option (List (String × String))
deriving DecidableEq, Repr

/-- One entry of the synthetic lock's `dependencies` dict (lines
1212-1216). -/
structure DepEntry where
  version : String
  resolved : String
  integrity : String
deriving DecidableEq, Repr

/-- The synthetic `package-lock.json` structure built at lines
1179-1216. -/
structure LockData where
  name : String
  version : String
  lockfileVersion : Nat
  requires : Bool
  packages : List (String × PkgEntry)
  dependencies : List (String × DepEntry)
deriving DecidableEq, Repr

/-- Typed content of a file in the extracted tree. -/
inductive FileContent where
  | manifest (m : PkgManifest)
  | lock (l : LockData)
  | other
deriving DecidableEq, Repr

/-- The extracted tree: existing files with their contents, one entry
per path. -/
abbrev FileTree := List (List String × FileContent)

def readFS : FileTree → List String → Option FileContent
  | [], _ => none
  | (q, c) :: rest, p => if q = p then some c else readFS rest p

/-- `open(path, 'w')`: create or overwrite the file at `path`. -/
def writeFS (fs : FileTree) (p : List String) (c : FileContent) : FileTree :=
  (p, c) :: fs.filter (fun e => e.1 != p)

/-- `dep_version.lstrip('^~>=<')` (lines 1201/1233). -/
def cleanVersion (v : String) : String :=
  ⟨v.data.dropWhile (fun c => ['^', '~', '>', '=', '<'].contains c)⟩

/-- The deterministic placeholder resolution reference (lines 1206/1214). -/
def registryUrl (d v : String) : String :=
  "https://registry.npmjs.org/" ++ d ++ "/-/" ++ d ++ "-" ++ v ++ ".tgz"

/-- The placeholder integrity hash (lines 1207/1215). -/
def placeholderIntegrity : String := "sha512-" ++ String.mk (List.replicate 64 '0')

/-- The lock structure of lines 1179-1216, built from the manifest's
name, version and dependency map. -/
def mkLockData (name version : String) (deps : List (String × String)) : LockData :=
  { name := name
    version := version
    lockfileVersion := 3
    requires := true
    packages :=
      ("", { name := some name, version := version, license := some "MIT",
             resolved := none, integrity := none,
             dependencies := if deps.isEmpty then none else some deps })
        :: deps.map (fun dv =>
          ("node_modules/" ++ dv.1,
           { name := none, version := cleanVersion dv.2, license := some "MIT",
             resolved := some (registryUrl dv.1 (cleanVersion dv.2)),
             integrity := some placeholderIntegrity,
             dependencies := none }))
    dependencies := deps.map (fun dv =>
      (dv.1, { version := cleanVersion dv.2,
               resolved := registryUrl dv.1 (cleanVersion dv.2),
               integrity := placeholderIntegrity })) }

/-- The recognized lock files (line 1163). -/
def lockFileNames : List String := ["package-lock.json", "yarn.lock", "pnpm-lock.yaml"]

/-- Line 1164: does any recognized lock file exist next to the manifest? -/
def hasLockFile (fs : FileTree) (dir : List String) : Bool :=
  lockFileNames.any (fun l => (readFS fs (dir ++ [l])).isSome)

/-- Lines 1227-1240: materialize `node_modules/<dep>/package.json` with a
minimal manifest per declared dependency. -/
def writeDepManifests (dir : List String) (deps : List (String × String))
    (fs : FileTree) : FileTree :=
  deps.foldl (fun acc dv =>
    writeFS acc (dir ++ ["node_modules", dv.1, "package.json"])
      (.manifest ⟨some dv.1, some (cleanVersion dv.2), []⟩)) fs

/-- `json.load` of a manifest file: succeeds only on parseable manifest
content. -/
def asManifest : Option FileContent → Option PkgManifest
  | some (.manifest m) => some m
  | _ => none

/-- The per-manifest body of the loop at lines 1159-1252: skip when a
sibling lock file exists; otherwise read the manifest (skipping it when
it does not parse), write the synthetic lock, then materialize the
dependency directories. -/
def processManifest (fs : FileTree) (dir : List String) : FileTree :=
  if hasLockFile fs dir then fs
  else
    (asManifest (readFS fs (dir ++ ["package.json"]))).elim fs (fun m =>
      writeDepManifests dir m.dependencies
        (writeFS fs (dir ++ ["package-lock.json"])
          (.lock (mkLockData (m.name.getD "unknown") (m.version.getD "0.0.0")
            m.dependencies))))

/-- The `os.walk` collection of lines 1152-1157: every directory holding
a file named exactly `package.json`. -/
def findPackageJsons (fs : FileTree) : List (List String) :=
  fs.filterMap (fun e =>
    if e.1.getLast? = some "package.json" then some e.1.dropLast else none)

/-- `enhance_nodejs_package_for_scanning(extract_dir)` (lines 1146-1256):
collect the manifests first, then process each in turn. -/
def enhance_nodejs_package_for_scanning (fs : FileTree) : FileTree :=
  (findPackageJsons fs).foldl processManifest fs

/-- Projection used to state properties of a written lock file. -/
def lockDeps : Option FileContent → Option (List (String × DepEntry))
  | some (.lock L) => some L.dependencies
  | _ => none

/-- The extracted tree of the dependency-coverage test case: one manifest
declaring `{"left-pad": "^1.3.0"}` and no lock file. -/
def leftPadTree : FileTree :=
  [(["pkg", "package.json"],
    .manifest ⟨some "app", some "1.0.0", [("left-pad", "^1.3.0")]⟩)]

/-- C7: on a manifest declaring exactly `{"left-pad": "^1.3.0"}` with no
existing lock file, synthesis produces a lock whose dependency-map key
set is exactly `{left-pad}` with resolved version `1.3.0` (leading range
operator stripped), and materializes exactly one `node_modules`
subdirectory, named `left-pad`, holding a minimal manifest with version
`1.3.0`. -/
theorem C7_dependency_coverage :
    (lockDeps (readFS (enhance_nodejs_package_for_scanning leftPadTree)
        ["pkg", "package-lock.json"])).map (fun dl => dl.map Prod.fst)
      = some ["left-pad"]
    ∧ (lockDeps (readFS (enhance_nodejs_package_for_scanning leftPadTree)
        ["pkg", "package-lock.json"])).map (fun dl => dl.map (fun e => e.2.version))
      = some ["1.3.0"]
    ∧ ((enhance_nodejs_package_for_scanning leftPadTree).map Prod.fst).filter
        (fun q => q.take 2 == ["pkg", "node_modules"])
      = [["pkg", "node_modules", "left-pad", "package.json"]]
    ∧ readFS (enhance_nodejs_package_for_scanning leftPadTree)
        ["pkg", "node_modules", "left-pad", "package.json"]
      = some (.manifest ⟨some "left-pad", some "1.3.0", []⟩) := by decide

/-! Supporting lemmas for the idempotence of the synthesizer. -/

theorem concat_inj {α} {xs ys : List α} {a b : α} (h : xs ++ [a] = ys ++ [b]) :
    xs = ys ∧ a = b := by
  have hlen : xs.length = ys.length := by
    have hl := congrArg List.length h
    simp only [List.length_append, List.length_cons, List.length_nil] at hl
    omega
  obtain ⟨h1, h2⟩ := List.append_inj h hlen
  exact ⟨h1, by simpa using h2⟩

theorem readFS_filter_ne (fs : FileTree) {p q : List String} (h : q ≠ p) :
    readFS (fs.filter (fun e => e.1 != p)) q = readFS fs q := by
  induction fs with
  | nil => rfl
  | cons e rest ih =>
    obtain ⟨x, c⟩ := e
    by_cases hx : x = p
    · have hbn : (x != p) = false := by rw [hx]; simp
      have hxq : ¬ x = q := fun he => h (by rw [← he, hx])
      simp [List.filter_cons, hbn, readFS, hxq, ih]
    · have hbn : (x != p) = true := bne_iff_ne.mpr hx
      simp [List.filter_cons, hbn, readFS, ih]

theorem readFS_writeFS_eq (fs : FileTree) (p : List String) (c : FileContent) :
    readFS (writeFS fs p c) p = some c := by
  simp [writeFS, readFS]

theorem readFS_writeFS_ne (fs : FileTree) (c : FileContent) {p q : List String}
    (h : q ≠ p) : readFS (writeFS fs p c) q = readFS fs q := by
  simp only [writeFS, readFS]
  rw [if_neg (fun he => h he.symm)]
  exact readFS_filter_ne fs h

theorem readFS_writeDepManifests_last_ne (dir : List String)
    (deps : List (String × String)) (fs : FileTree) {t : List String} {s : String}
    (ht : t.getLast? = some s) (hs : s ≠ "package.json") :
    readFS (writeDepManifests dir deps fs) t = readFS fs t := by
  induction deps generalizing fs with
  | nil => rfl
  | cons dv rest ih =>
    show readFS (writeDepManifests dir rest
      (writeFS fs (dir ++ ["node_modules", dv.1, "package.json"]) _)) t = _
    rw [ih, readFS_writeFS_ne]
    intro he
    have hg : (dir ++ ["node_modules", dv.1, "package.json"]).getLast?
        = some "package.json" := by
      rw [List.getLast?_append]
      rfl
    rw [he, hg] at ht
    exact hs (Option.some.inj ht).symm

/-- There is a parseable manifest at `dir/package.json`. -/
def ManifestAt (fs : FileTree) (dir : List String) : Prop :=
  ∃ m, readFS fs (dir ++ ["package.json"]) = some (FileContent.manifest m)

theorem manifestAt_writeFS_manifest (fs : FileTree) (p w : List String)
    (mm : PkgManifest) (h : ManifestAt fs p) :
    ManifestAt (writeFS fs w (.manifest mm)) p := by
  by_cases heq : w = p ++ ["package.json"]
  · exact ⟨mm, by rw [← heq, readFS_writeFS_eq]⟩
  · obtain ⟨m0, hm0⟩ := h
    exact ⟨m0, by rw [readFS_writeFS_ne _ _ (fun he => heq he.symm), hm0]⟩

theorem manifestAt_writeDepManifests (dir : List String)
    (deps : List (String × String)) (fs : FileTree) (p : List String)
    (h : ManifestAt fs p) : ManifestAt (writeDepManifests dir deps fs) p := by
  induction deps generalizing fs with
  | nil => exact h
  | cons dv rest ih =>
    exact ih _ (manifestAt_writeFS_manifest fs p _ _ h)

theorem manifestAt_processManifest (fs : FileTree) (q p : List String)
    (h : ManifestAt fs p) : ManifestAt (processManifest fs q) p := by
  by_cases hq : hasLockFile fs q = true
  · rw [processManifest, if_pos hq]; exact h
  · rw [processManifest, if_neg hq]
    cases ham : asManifest (readFS fs (q ++ ["package.json"])) with
    | none => exact h
    | some m =>
      simp only [Option.elim]
      refine manifestAt_writeDepManifests _ _ _ _ ?_
      obtain ⟨m0, hm0⟩ := h
      refine ⟨m0, ?_⟩
      rw [readFS_writeFS_ne, hm0]
      intro he
      exact absurd (concat_inj he).2 (by decide)

theorem hasLockFile_congr {fs fs' : FileTree} {p : List String}
    (h : ∀ l ∈ lockFileNames, readFS fs' (p ++ [l]) = readFS fs (p ++ [l])) :
    hasLockFile fs' p = hasLockFile fs p := by
  simp only [hasLockFile, lockFileNames, List.any_cons, List.any_nil]
  rw [h "package-lock.json" (by decide), h "yarn.lock" (by decide),
      h "pnpm-lock.yaml" (by decide)]

theorem processManifest_locked (fs : FileTree) (q p : List String)
    (hp : hasLockFile fs p = true) :
    (∀ l ∈ lockFileNames,
      readFS (processManifest fs q) (p ++ [l]) = readFS fs (p ++ [l]))
    ∧ hasLockFile (processManifest fs q) p = true := by
  have hread : ∀ l ∈ lockFileNames,
      readFS (processManifest fs q) (p ++ [l]) = readFS fs (p ++ [l]) := by
    intro l hl
    by_cases hq : hasLockFile fs q = true
    · rw [processManifest, if_pos hq]
    · rw [processManifest, if_neg hq]
      cases ham : asManifest (readFS fs (q ++ ["package.json"])) with
      | none => rfl
      | some m =>
        simp only [Option.elim]
        have hlast : l ≠ "package.json" := by fin_cases hl <;> decide
        rw [readFS_writeDepManifests_last_ne _ _ _ (List.getLast?_concat _) hlast,
            readFS_writeFS_ne]
        intro he
        exact hq ((concat_inj he).1 ▸ hp)
  refine ⟨hread, ?_⟩
  rw [hasLockFile_congr hread]
  exact hp

theorem processManifest_self_locked (fs : FileTree) (p : List String)
    (h : ManifestAt fs p) : hasLockFile (processManifest fs p) p = true := by
  obtain ⟨m, hm⟩ := h
  by_cases hl : hasLockFile fs p = true
  · rw [processManifest, if_pos hl]; exact hl
  · rw [processManifest, if_neg hl, hm]
    simp only [asManifest, Option.elim]
    have hr : readFS (writeDepManifests p m.dependencies
        (writeFS fs (p ++ ["package-lock.json"])
          (.lock (mkLockData (m.name.getD "unknown") (m.version.getD "0.0.0")
            m.dependencies))))
        (p ++ ["package-lock.json"])
        = some (.lock (mkLockData (m.name.getD "unknown") (m.version.getD "0.0.0")
            m.dependencies)) := by
      rw [readFS_writeDepManifests_last_ne _ _ _ (List.getLast?_concat _) (by decide),
          readFS_writeFS_eq]
    simp only [hasLockFile, lockFileNames, List.any_cons, List.any_nil, hr]
    simp

theorem foldl_locked (ms : List (List String)) (fs : FileTree) (p : List String)
    (hp : hasLockFile fs p = true) :
    readFS (ms.foldl processManifest fs) (p ++ ["package-lock.json"])
      = readFS fs (p ++ ["package-lock.json"])
    ∧ hasLockFile (ms.foldl processManifest fs) p = true := by
  induction ms generalizing fs with
  | nil => exact ⟨rfl, hp⟩
  | cons q rest ih =>
    rw [List.foldl_cons]
    obtain ⟨hread, hlock⟩ := processManifest_locked fs q p hp
    obtain ⟨ih1, ih2⟩ := ih (processManifest fs q) hlock
    exact ⟨by rw [ih1, hread "package-lock.json" (by decide)], ih2⟩

theorem foldl_ensures_lock (ms : List (List String)) (fs : FileTree) (p : List String)
    (hman : ManifestAt fs p) (hmem : p ∈ ms) :
    hasLockFile (ms.foldl processManifest fs) p = true := by
  induction ms generalizing fs with
  | nil => cases hmem
  | cons q rest ih =>
    rw [List.foldl_cons]
    rcases List.mem_cons.mp hmem with heq | hmem'
    · subst heq
      exact (foldl_locked rest _ p (processManifest_self_locked fs p hman)).2
    · exact ih _ (manifestAt_processManifest fs q p hman) hmem'

theorem mem_findPackageJsons_of_read {fs : FileTree} {p : List String}
    {c : FileContent} (h : readFS fs (p ++ ["package.json"]) = some c) :
    p ∈ findPackageJsons fs := by
  induction fs with
  | nil => simp [readFS] at h
  | cons e rest ih =>
    obtain ⟨x, cx⟩ := e
    simp only [readFS] at h
    by_cases hx : x = p ++ ["package.json"]
    · have hg : x.getLast? = some "package.json" := by
        rw [hx]; exact List.getLast?_concat _
      have hstep : findPackageJsons ((x, cx) :: rest)
          = x.dropLast :: findPackageJsons rest := by
        simp [findPackageJsons, List.filterMap_cons, hg]
      rw [hstep, hx, List.dropLast_concat]
      exact List.mem_cons_self _ _
    · rw [if_neg hx] at h
      by_cases hg : x.getLast? = some "package.json"
      · have hstep : findPackageJsons ((x, cx) :: rest)
            = x.dropLast :: findPackageJsons rest := by
          simp [findPackageJsons, List.filterMap_cons, hg]
        rw [hstep]
        exact List.mem_cons_of_mem _ (ih h)
      · have hstep : findPackageJsons ((x, cx) :: rest) = findPackageJsons rest := by
          simp [findPackageJsons, List.filterMap_cons, hg]
        rw [hstep]
        exact ih h

/-- C6: the manifest synthesizer is idempotent on generated lock files —
running `enhance_nodejs_package_for_scanning` twice on the same extracted
tree leaves the lock file of any directory holding a parseable manifest
identical after the second run, because a manifest that already has a
sibling lock file is left untouched. -/
theorem C6_synthesis_idempotent (fs : FileTree) (p : List String)
    (h : ManifestAt fs p) :
    readFS (enhance_nodejs_package_for_scanning
        (enhance_nodejs_package_for_scanning fs)) (p ++ ["package-lock.json"])
      = readFS (enhance_nodejs_package_for_scanning fs)
        (p ++ ["package-lock.json"]) := by
  obtain ⟨m, hm⟩ := h
  have hmem : p ∈ findPackageJsons fs := mem_findPackageJsons_of_read hm
  have hlock1 : hasLockFile (enhance_nodejs_package_for_scanning fs) p = true := by
    rw [enhance_nodejs_package_for_scanning]
    exact foldl_ensures_lock _ fs p ⟨m, hm⟩ hmem
  exact (foldl_locked (findPackageJsons (enhance_nodejs_package_for_scanning fs))
    (enhance_nodejs_package_for_scanning fs) p hlock1).1

/-- C6 (witness): concrete instance on the left-pad tree — the lock file
generated by the first run is unchanged by the second run. -/
theorem C6_synthesis_idempotent_witness :
    ManifestAt leftPadTree ["pkg"]
    ∧ readFS (enhance_nodejs_package_for_scanning
        (enhance_nodejs_package_for_scanning leftPadTree))
        (["pkg"] ++ ["package-lock.json"])
      = readFS (enhance_nodejs_package_for_scanning leftPadTree)
        (["pkg"] ++ ["package-lock.json"]) :=
  ⟨⟨⟨some "app", some "1.0.0", [("left-pad", "^1.3.0")]⟩, rfl⟩,
   C6_synthesis_idempotent leftPadTree ["pkg"]
     ⟨⟨some "app", some "1.0.0", [("left-pad", "^1.3.0")]⟩, rfl⟩⟩

/-! ### Report aggregation (`generate_combined_report`, lines 2390-2419)

The per-repository summary is modelled as an insertion-ordered
association list (a Python dict).  The `components_with_vulnerabilities`
set is modelled by its distinct elements in insertion order;
`list(set(...))` at line 2418 converts the set to a list in the set's
iteration order — no sort is applied by the code (CPython's set
iteration order is unspecified and hash-dependent; insertion order is
one realization of it). -/

/-- A vulnerability record as consumed by the report generator (it only
reads `severity`, `repository` and `component` with `.get` defaults). -/
structure RVuln where
  severity : Option String
  repository : Option String
  component : Option String
deriving DecidableEq, Repr

/-- `set.add(x)` on the modelled set. -/
def pySetAdd (s : List String) (x : String) : List String :=
  if s.contains x then s else s ++ [x]

/-- Lines 2405-2413: create the repository's entry on first sight, then
add the component to its set. -/
def updateRepoSummary : List (String × List String) → String → String →
    List (String × List String)
  | [], r, c => [(r, pySetAdd [] c)]
  | (r', s) :: rest, r, c =>
    if r' = r then (r', pySetAdd s c) :: rest
    else (r', s) :: updateRepoSummary rest r c

/-- The grouping loop of lines 2399-2414 restricted to the
`components_with_vulnerabilities` sets, followed by the `list(...)`
conversion of line 2418 (the identity on the modelled order). -/
def buildComponentsByRepo (vulns : List RVuln) : List (String × List String) :=
  vulns.foldl (fun summary v =>
    updateRepoSummary summary (v.repository.getD "Unknown")
      (v.component.getD "Unknown")) []

/-- Dict lookup on the modelled summary. -/
def lookupRepo : List (String × List String) → String → Option (List String)
  | [], _ => none
  | (r', s) :: rest, r => if r' = r then some s else lookupRepo rest r

theorem pySetAdd_nodup {s : List String} (x : String) (h : s.Nodup) :
    (pySetAdd s x).Nodup := by
  unfold pySetAdd
  split
  · exact h
  · next hc =>
    have hx : x ∉ s := by
      intro hm
      exact hc (List.elem_iff.mpr hm)
    simp [List.nodup_append, h, hx]

theorem updateRepoSummary_nodup {l : List (String × List String)} {r c : String}
    (h : ∀ e ∈ l, e.2.Nodup) :
    ∀ e ∈ updateRepoSummary l r c, e.2.Nodup := by
  induction l with
  | nil =>
    intro e he
    simp only [updateRepoSummary, List.mem_singleton] at he
    subst he
    exact pySetAdd_nodup c List.nodup_nil
  | cons hd rest ih =>
    obtain ⟨r', s⟩ := hd
    intro e he
    simp only [updateRepoSummary] at he
    by_cases hr : r' = r
    · rw [if_pos hr] at he
      rcases List.mem_cons.mp he with heq | hrest
      · subst heq
        exact pySetAdd_nodup c (h (r', s) (List.mem_cons_self _ _))
      · exact h e (List.mem_cons_of_mem _ hrest)
    · rw [if_neg hr] at he
      rcases List.mem_cons.mp he with heq | hrest
      · subst heq
        exact h (r', s) (List.mem_cons_self _ _)
      · exact ih (fun e' he' => h e' (List.mem_cons_of_mem _ he')) e hrest

theorem buildComponentsByRepo_nodup (vulns : List RVuln) :
    ∀ e ∈ buildComponentsByRepo vulns, e.2.Nodup := by
  unfold buildComponentsByRepo
  have hgen : ∀ (init : List (String × List String)), (∀ e ∈ init, e.2.Nodup) →
      ∀ e ∈ vulns.foldl (fun summary v =>
        updateRepoSummary summary (v.repository.getD "Unknown")
          (v.component.getD "Unknown")) init, e.2.Nodup := by
    induction vulns with
    | nil => intro init h e he; exact h e he
    | cons v rest ih =>
      intro init h e he
      rw [List.foldl_cons] at he
      exact ih _ (updateRepoSummary_nodup h) e he
  exact hgen [] (by intro e he; cases he)

theorem lookupRepo_mem {l : List (String × List String)} {r : String}
    {s : List String} (h : lookupRepo l r = some s) : (r, s) ∈ l ∨ ∃ r', (r', s) ∈ l := by
  induction l with
  | nil => simp [lookupRepo] at h
  | cons hd rest ih =>
    obtain ⟨r', s'⟩ := hd
    simp only [lookupRepo] at h
    by_cases hr : r' = r
    · rw [if_pos hr] at h
      exact Or.inr ⟨r', by rw [Option.some.inj h] at *; exact List.mem_cons_self _ _⟩
    · rw [if_neg hr] at h
      rcases ih h with hm | ⟨r'', hm⟩
      · exact Or.inl (List.mem_cons_of_mem _ hm)
      · exact Or.inr ⟨r'', List.mem_cons_of_mem _ hm⟩

/-- Python's lexicographic (code-point) string order, used by `sorted()`
on strings. -/
def lexLe : List Char → List Char → Bool
  | [], _ => true
  | _ :: _, [] => false
  | a :: as, b :: bs => if a = b then lexLe as bs else decide (a.toNat < b.toNat)

/-- C8 (counterexample): two vulnerability records in the same repository
whose components arrive as `zlib` then `apr` produce the components list
`[zlib, apr]`, which is not sorted (in Python's string order) —
`list(set(...))` at line 2418 applies no sort. -/
theorem C8_sorted_counterexample :
    lookupRepo (buildComponentsByRepo
        [⟨none, some "repo1", some "zlib"⟩, ⟨none, some "repo1", some "apr"⟩])
        "repo1"
      = some ["zlib", "apr"]
    ∧ ¬ List.Pairwise (fun a b : String => lexLe a.data b.data = true)
        ["zlib", "apr"] := by decide

/-- C8 (amended): at session end, every repository's
`components_with_vulnerabilities` list in the comprehensive report is
deduplicated (it comes from a set), but it is not sorted: the set is
converted with `list(...)` in set-iteration order and no sort is
applied. -/
theorem C8_components_amended (vulns : List RVuln) (r : String) (s : List String)
    (h : lookupRepo (buildComponentsByRepo vulns) r = some s) : s.Nodup := by
  rcases lookupRepo_mem h with hm | ⟨r', hm⟩
  · exact buildComponentsByRepo_nodup vulns _ hm
  · exact buildComponentsByRepo_nodup vulns _ hm

/-- C8 (witness): concrete instance — a duplicated component appears once
in the report list. -/
theorem C8_components_amended_witness :
    lookupRepo (buildComponentsByRepo
        [⟨none, some "repo1", some "libA"⟩, ⟨none, some "repo1", some "libA"⟩,
         ⟨none, some "repo1", some "libB"⟩]) "repo1"
      = some ["libA", "libB"]
    ∧ List.Nodup ["libA", "libB"] :=
  ⟨by decide,
   C8_components_amended
     [⟨none, some "repo1", some "libA"⟩, ⟨none, some "repo1", some "libA"⟩,
      ⟨none, some "repo1", some "libB"⟩] "repo1" ["libA", "libB"] (by decide)⟩

end NexusScanner


